import Mathlib

/-!
Verification development for the FinopolyPoker per-round decision bots.

The repository holds two Python files sharing identical card utilities:
  - 250103009.py : Monte-Carlo EV policy (card model, hand classifier,
    outcome simulator, EV decision tree, I/O adapter).
  - player_template.py : the band-heuristic baseline policy over the same
    card model and hand classifier.

The embedding below follows the Python source line by line:
  - card tokens are Lean strings; parsing returns Option (a Python
    KeyError / IndexError is modelled as none);
  - Python floats are modelled as exact rationals;
  - the simulator takes its random draws (the opponent holes produced by
    random.sample) as an explicit argument, so runs are deterministic;
  - a Python runtime error (for instance an unbound local) makes the
    embedded function return none.
-/

set_option linter.unusedVariables false
set_option maxHeartbeats 1000000

namespace FinopolyPoker

/-- Ranks from lowest to highest, as in the source string "23456789TJQKA". -/
def RANKS : List Char := ['2', '3', '4', '5', '6', '7', '8', '9', 'T', 'J', 'Q', 'K', 'A']

/-- Map rank character to numeric value 2..14 (A = 14); none models the
KeyError raised by the Python dict lookup on an unknown rank symbol. -/
def RANK_VALUE (r : Char) : Option ℕ :=
  (List.findIdx? (fun x => x == r) RANKS).map (fun i => i + 2)

/-- Convert a 2-character card token into (rank value, suit).  The source
indexes characters 0 and 1; a too-short token or an unknown rank symbol is
an error (none). -/
def parse_card (card_str : String) : Option (ℕ × Char) :=
  match card_str.data with
  | r :: s :: _ => (RANK_VALUE r).map (fun v => (v, s))
  | _ => none

/-- Parse a list of card tokens; fails if any single parse fails (the
Python list comprehension propagates the exception). -/
def parse_cards : List String → Option (List (ℕ × Char))
  | [] => some []
  | c :: rest =>
    match parse_card c, parse_cards rest with
    | some p, some ps => some (p :: ps)
    | _, _ => none

/-- Check if 3 cards form a straight under the custom rules of the source:
sort the ranks ascending; consecutive values give (true, highest); the
special multiset A-2-3 gives (true, 3); otherwise (false, 0).  The source
indexes the first three positions of the sorted list; every caller passes
exactly three ranks. -/
def is_straight_3 (rank_values : List ℕ) : Bool × ℕ :=
  match List.insertionSort (· ≤ ·) rank_values with
  | [r0, r1, r2] =>
    if r0 + 1 = r1 ∧ r1 + 1 = r2 then (true, r2)
    else if ({r0, r1, r2} : Finset ℕ) = {14, 2, 3} then (true, 3)
    else (false, 0)
  | _ => (false, 0)

/-- Category of an already-parsed 3-card hand: the body of hand_category
after the parsing step.  flush means all suits equal (the Python set of
suits has size 1); the rank-count membership tests mirror the Python
`3 in counts.values()` and `2 in counts.values()`. -/
def hand_category_parsed (parsed : List (ℕ × Char)) : ℕ :=
  let rank_values := parsed.map Prod.fst
  let suits := parsed.map Prod.snd
  let flush := suits.dedup.length == 1
  let straight := (is_straight_3 rank_values).1
  if straight && flush then 5
  else if rank_values.any (fun v => rank_values.count v == 3) then 4
  else if straight then 3
  else if flush then 2
  else if rank_values.any (fun v => rank_values.count v == 2) then 1
  else 0

/-- Compute the hand category (0..5) for the 3-card hand made of the two
hole cards plus the table card. -/
def hand_category (hole : List String) (table : String) : Option ℕ :=
  (parse_cards (hole ++ [table])).map hand_category_parsed

/-- The four suit symbols, as in the source string "CDHS". -/
def SUITS : List Char := ['C', 'D', 'H', 'S']

/-- The 52-card deck: every rank paired with every suit. -/
def deck : List String :=
  RANKS.flatMap (fun r => SUITS.map (fun s => String.mk [r, s]))

/-- The pool the simulator samples opponent holes from: the deck minus the
three known cards. -/
def available_deck (hole : List String) (table : String) : List String :=
  let known_cards := hole ++ [table]
  deck.filter (fun card => !(known_cards.contains card))

/-- Counting loop of the Monte-Carlo simulation: for each simulated
opponent hole, increment wins when my category is greater, ties when
equal.  Returns (wins, ties); none if some opponent hole fails to parse. -/
def mc_loop (my_category : ℕ) (table : String) : List (List String) → Option (ℕ × ℕ)
  | [] => some (0, 0)
  | opp_hole :: rest =>
    match hand_category opp_hole table, mc_loop my_category table rest with
    | some opp_category, some (wins, ties) =>
      if my_category > opp_category then some (wins + 1, ties)
      else if my_category = opp_category then some (wins, ties + 1)
      else some (wins, ties)
    | _, _ => none

/-- Monte-Carlo simulation with the random draws passed in explicitly
(each element of draws is one sampled opponent hole; the trial count is
the number of draws).  Note the source builds prob_win, prob_tie and
prob_lose and then returns the tuple (prob_win, prob_lose, prob_tie), in
that order, exactly as on line 217 of 250103009.py. -/
def monte_carlo_sim (hole : List String) (table : String)
    (draws : List (List String)) : Option (ℚ × ℚ × ℚ) :=
  match hand_category hole table with
  | none => none
  | some my_category =>
    match mc_loop my_category table draws with
    | none => none
    | some (wins, ties) =>
      let n_simulations : ℚ := (draws.length : ℚ)
      let prob_win : ℚ := (wins : ℚ) / n_simulations
      let prob_tie : ℚ := (ties : ℚ) / n_simulations
      let prob_lose : ℚ := 1 - prob_win - prob_tie
      some (prob_win, prob_lose, prob_tie)

/-- Relation between two optional parsed-card lists: both fail, or both
succeed with permuted results (used to transport hand_category along a
reordering of its input cards). -/
def OptPerm (o1 o2 : Option (List (ℕ × Char))) : Prop :=
  (o1 = none ∧ o2 = none) ∨ ∃ m1 m2, o1 = some m1 ∧ o2 = some m2 ∧ m1.Perm m2

/-- Opponent action counts accumulated over prior rounds. -/
structure OpponentStats where
  fold : ℕ
  call : ℕ
  raise : ℕ
deriving DecidableEq

/-- The round state received from the engine: hole cards, table card,
optional opponent statistics, optional round number, optional rule
metadata. -/
structure RoundState where
  your_hole : List String
  table_card : String
  opponent_stats : Option OpponentStats
  round : Option ℕ
  rules : Option String

/-- EV policy of 250103009.py.  The draws argument fixes the random holes
used by the simulator.  The zero-observation branch of the source assigns
only opp_fold_rate and opp_raise_rate; opp_call_rate is assigned only in
the else branch, so reading it in the ev_call formula is an error in the
zero case (modelled by the Option bind on opp_call_rate).  Note the
source unpacks the simulator triple as (prob_win, prob_tie, prob_lose)
although the simulator returns (prob_win, prob_lose, prob_tie). -/
def decide_action (state : RoundState) (draws : List (List String)) : Option String := do
  let hole := state.your_hole
  let table := state.table_card
  let opp := state.opponent_stats.getD ⟨0, 0, 0⟩
  let round_number := state.round.getD 1
  let total_opp_actions := opp.fold + opp.call + opp.raise
  let opp_fold_rate : ℚ :=
    if total_opp_actions = 0 then 0.33 else (opp.fold : ℚ) / (total_opp_actions : ℚ)
  let opp_raise_rate : ℚ :=
    if total_opp_actions = 0 then 0.33 else (opp.raise : ℚ) / (total_opp_actions : ℚ)
  let opp_call_rate_binding : Option ℚ :=
    if total_opp_actions = 0 then none
    else some (1 - (opp.fold : ℚ) / (total_opp_actions : ℚ)
                 - (opp.raise : ℚ) / (total_opp_actions : ℚ))
  let category ← hand_category hole table
  let (prob_win, prob_tie, prob_lose) ← monte_carlo_sim hole table draws
  let ev_fold : ℚ := -1
  let opp_call_rate ← opp_call_rate_binding
  let ev_call : ℚ :=
    opp_fold_rate * 2 +
    opp_call_rate * (prob_win * 2 + prob_lose * (-2)) +
    opp_raise_rate * (prob_win * 2 + prob_lose * (-3))
  let ev_raise : ℚ :=
    opp_fold_rate * 3 +
    opp_call_rate * (prob_win * 3 + prob_lose * (-2)) +
    opp_raise_rate * (prob_win * 3 + prob_lose * (-3))
  if category ≥ 4 then
    if ev_raise ≥ ev_call ∨ prob_win > 0.85 then pure ("RAISE") else pure ("CALL")
  else if category = 3 then
    if ev_raise ≥ max ev_call ev_fold then pure ("RAISE")
    else if ev_call > ev_fold then pure ("CALL")
    else pure ("FOLD")
  else if category = 2 then
    if prob_win > 0.6 ∧ ev_raise > ev_call then pure ("RAISE")
    else if prob_win > 0.45 ∨ ev_call > 0 then pure ("CALL")
    else pure ("FOLD")
  else if category = 1 then
    if opp_raise_rate > 0.5 ∧ prob_win < 0.5 then
      if ev_call > 0 then pure ("CALL") else pure ("FOLD")
    else if prob_win > 0.55 ∨ (ev_call > 0.5 ∧ opp_fold_rate > 0.4) then pure ("CALL")
    else if ev_fold ≥ ev_call then pure ("FOLD")
    else pure ("CALL")
  else if category = 0 then
    if prob_win > 0.6 ∧ opp_fold_rate > 0.4 then pure ("CALL")
    else if ev_call > 0.3 then pure ("CALL")
    else pure ("FOLD")
  else pure ("CALL")

/-- Safety check of the I/O adapter: default to CALL if something invalid
is returned. -/
def main_safety_check (action : String) : String :=
  if ¬ (action = "FOLD" ∨ action = "CALL" ∨ action = "RAISE") then "CALL" else action

/-- I/O adapter of 250103009.py restricted to the decision part: call
decide_action, then normalize the returned label. -/
def main (state : RoundState) (draws : List (List String)) : Option String := do
  let action ← decide_action state draws
  pure (main_safety_check action)

namespace PlayerTemplate

/-- Threshold of player_template.py: opponent is very aggressive. -/
def HIGH_RAISE_RATE : ℚ := 0.60

/-- Threshold of player_template.py: opponent folds quite often. -/
def HIGH_FOLD_RATE : ℚ := 0.50

/-- Band-heuristic policy of player_template.py.  The card utilities of
player_template.py are character-for-character identical to those of
250103009.py, so this policy reuses the embedding above.  The template
never runs a simulation and its zero-observation branch assigns both
rates, so the only failure mode is a card-parsing error. -/
def decide_action (state : RoundState) : Option String :=
  match hand_category state.your_hole state.table_card with
  | none => none
  | some category =>
    let opp := state.opponent_stats.getD ⟨0, 0, 0⟩
    let total_opp_actions := opp.fold + opp.call + opp.raise
    let opp_fold_rate : ℚ :=
      if total_opp_actions = 0 then 0 else (opp.fold : ℚ) / (total_opp_actions : ℚ)
    let opp_raise_rate : ℚ :=
      if total_opp_actions = 0 then 0 else (opp.raise : ℚ) / (total_opp_actions : ℚ)
    let is_weak := category = 0
    let is_medium := category = 1 ∨ category = 2
    let is_strong := category ≥ 3
    if is_strong then some ("RAISE")
    else if is_medium then
      if opp_raise_rate > HIGH_RAISE_RATE then some ("CALL")
      else if opp_fold_rate > HIGH_FOLD_RATE then some ("RAISE")
      else some ("CALL")
    else if is_weak then
      if opp_raise_rate > HIGH_RAISE_RATE then some ("FOLD")
      else some ("CALL")
    else some ("CALL")

end PlayerTemplate

/-! Theorems.  Claim C1 and claim C2 are settled against the code as code
bugs; the remaining claims are confirmed below. -/

/-- Claim C1 (code evaluated at the failing input): with a well-formed
round state whose opponent_stats counts are all zero (or absent), the
source decide_action reads the never-assigned local opp_call_rate inside
the ev_call formula and raises UnboundLocalError instead of returning a
label; the embedding returns none. -/
theorem claim_C1_zero_stats_error :
    decide_action ⟨["2C", "5D"], "9H", some ⟨0, 0, 0⟩, some 1, none⟩ [["9C", "9D"]] = none ∧
    decide_action ⟨["2C", "5D"], "9H", none, some 1, none⟩ [["9C", "9D"]] = none :=
  ⟨rfl, rfl⟩

/-- Claim C2 (code evaluated at the failing input): on the hand 2C 5D with
table 9H and a single simulated opponent hole 9C 9D, the run has zero wins
and zero ties (so the tie probability is 0 and the loss probability is 1),
yet monte_carlo_sim returns the triple (0, 1, 0): the second component is
the loss probability and the third the tie probability, not the (P_win,
P_tie, P_lose) order stated by its own documentation and assumed by the
caller decide_action. -/
theorem claim_C2_sim_tuple_order :
    hand_category ["2C", "5D"] ("9H") = some 0 ∧
    mc_loop 0 ("9H") [["9C", "9D"]] = some (0, 0) ∧
    monte_carlo_sim ["2C", "5D"] ("9H") [["9C", "9D"]] = some (0, 1, 0) := by
  refine ⟨rfl, rfl, ?_⟩
  with_unfolding_all decide

/-- Helper for claim C5: the counting loop produces at most one increment
per trial, so wins + ties never exceeds the number of draws. -/
theorem mc_loop_counts_le {my : ℕ} {table : String} :
    ∀ {draws : List (List String)} {w t : ℕ},
      mc_loop my table draws = some (w, t) → w + t ≤ draws.length := by
  intro draws
  induction draws with
  | nil =>
    intro w t h
    rw [mc_loop] at h
    simp only [Option.some.injEq, Prod.mk.injEq] at h
    obtain ⟨hw, ht⟩ := h
    simp [← hw, ← ht]
  | cons d rest ih =>
    intro w t h
    rw [mc_loop] at h
    cases hc : hand_category d table with
    | none => rw [hc] at h; simp at h
    | some oc =>
      rw [hc] at h
      cases hr : mc_loop my table rest with
      | none => rw [hr] at h; simp at h
      | some p =>
        obtain ⟨w0, t0⟩ := p
        rw [hr] at h
        have hb := ih hr
        dsimp only at h
        split_ifs at h <;>
          (simp only [Option.some.injEq, Prod.mk.injEq] at h;
           obtain ⟨hw, ht⟩ := h;
           simp only [List.length_cons];
           omega)

/-- Claim C5: whenever the simulator succeeds on a positive trial count,
each of the three returned probabilities lies in [0, 1] and they sum to 1
exactly: the win and tie counts are non-negative, together never exceed
the trial count, and the loss probability is one minus the other two. -/
theorem claim_C5_probabilities_wellformed :
    ∀ (hole : List String) (table : String) (draws : List (List String)) (p1 p2 p3 : ℚ),
      draws ≠ [] →
      monte_carlo_sim hole table draws = some (p1, p2, p3) →
      0 ≤ p1 ∧ p1 ≤ 1 ∧ 0 ≤ p2 ∧ p2 ≤ 1 ∧ 0 ≤ p3 ∧ p3 ≤ 1 ∧ p1 + p2 + p3 = 1 := by
  intro hole table draws p1 p2 p3 hne h
  rw [monte_carlo_sim] at h
  cases hc : hand_category hole table with
  | none => rw [hc] at h; simp at h
  | some my =>
    rw [hc] at h
    dsimp only at h
    cases hr : mc_loop my table draws with
    | none => rw [hr] at h; simp at h
    | some p =>
      obtain ⟨w, t⟩ := p
      rw [hr] at h
      have hb : w + t ≤ draws.length := mc_loop_counts_le hr
      dsimp only at h
      simp only [Option.some.injEq, Prod.mk.injEq] at h
      obtain ⟨h1, h2, h3⟩ := h
      have hn : (0 : ℚ) < (draws.length : ℚ) := by
        have hp : 0 < draws.length := List.length_pos.mpr hne
        exact_mod_cast hp
      have hw : (w : ℚ) ≤ (draws.length : ℚ) := by
        have hp : w ≤ draws.length := le_trans (Nat.le_add_right w t) hb
        exact_mod_cast hp
      have ht : (t : ℚ) ≤ (draws.length : ℚ) := by
        have hp : t ≤ draws.length := le_trans (Nat.le_add_left t w) hb
        exact_mod_cast hp
      have hwt : (w : ℚ) + (t : ℚ) ≤ (draws.length : ℚ) := by exact_mod_cast hb
      have hdw : (0 : ℚ) ≤ (w : ℚ) / (draws.length : ℚ) := by positivity
      have hdt : (0 : ℚ) ≤ (t : ℚ) / (draws.length : ℚ) := by positivity
      have hsum : (w : ℚ) / (draws.length : ℚ) + (t : ℚ) / (draws.length : ℚ) ≤ 1 := by
        rw [div_add_div_same]
        exact (div_le_one hn).mpr hwt
      subst h1 h2 h3
      refine ⟨hdw, (div_le_one hn).mpr hw, ?_, ?_, hdt, (div_le_one hn).mpr ht, by ring⟩
      · linarith
      · linarith

/-- Witness for claim C5 at a concrete run of one trial. -/
theorem claim_C5_witness :
    ((([["9C", "9D"]] : List (List String)) ≠ []) ∧
      (0 ≤ (0 : ℚ) ∧ (0 : ℚ) ≤ 1 ∧ 0 ≤ (1 : ℚ) ∧ (1 : ℚ) ≤ 1 ∧ 0 ≤ (0 : ℚ) ∧ (0 : ℚ) ≤ 1 ∧
        (0 : ℚ) + 1 + 0 = 1)) :=
  ⟨by simp, claim_C5_probabilities_wellformed ["2C", "5D"] ("9H") [["9C", "9D"]] 0 1 0
    (by simp) (by with_unfolding_all decide)⟩

/-- Claim C4: for a hand of category 4 or 5 whose simulated win
probability exceeds 0.85, the EV policy returns RAISE whatever the
opponent rates and the computed EV values are (the escape clause
`prob_win > 0.85` makes the disjunction true). -/
theorem claim_C4_escape_clause :
    ∀ (state : RoundState) (draws : List (List String)) (cat : ℕ) (pw pl pt : ℚ) (res : String),
      hand_category state.your_hole state.table_card = some cat →
      monte_carlo_sim state.your_hole state.table_card draws = some (pw, pl, pt) →
      4 ≤ cat →
      (0.85 : ℚ) < pw →
      decide_action state draws = some res →
      res = "RAISE" := by
  intro state draws cat pw pl pt res hcat hmc h4 hpw h
  rw [decide_action] at h
  simp only [Option.bind_eq_bind, Option.pure_def] at h
  rw [hcat] at h
  simp only [Option.some_bind] at h
  rw [hmc] at h
  simp only [Option.some_bind] at h
  dsimp only at h
  by_cases ht :
      (state.opponent_stats.getD ⟨0, 0, 0⟩).fold + (state.opponent_stats.getD ⟨0, 0, 0⟩).call +
        (state.opponent_stats.getD ⟨0, 0, 0⟩).raise = 0
  · rw [if_pos ht] at h
    simp at h
  · rw [if_neg ht] at h
    simp only [Option.some_bind] at h
    rw [if_pos (show cat ≥ 4 from h4)] at h
    rw [if_pos (Or.inr hpw)] at h
    exact (Option.some.inj h).symm

/-- Witness for claim C4: straight flush Q-K-A of spades, win probability
1 against the single simulated opponent hole, non-zero opponent stats. -/
theorem claim_C4_witness :
    (4 ≤ 5) ∧ ("RAISE" : String) = "RAISE" :=
  ⟨by decide,
    claim_C4_escape_clause ⟨["QS", "KS"], "AS", some ⟨1, 1, 1⟩, some 1, none⟩ [["2C", "5D"]]
      5 1 0 0 ("RAISE") rfl (by with_unfolding_all decide) (by decide)
      (by with_unfolding_all decide) (by with_unfolding_all decide)⟩

/-- Claim C9: two round states that agree on the hole cards, the table
card and the opponent statistics produce the same decision for the same
fixed simulator draws, whatever their round numbers and rules fields are:
decide_action binds round_number but never uses it, and never reads
rules. -/
theorem claim_C9_round_rules_ignored :
    ∀ (hole : List String) (table : String) (stats : Option OpponentStats)
      (r1 r2 : Option ℕ) (ru1 ru2 : Option String) (draws : List (List String)),
      decide_action ⟨hole, table, stats, r1, ru1⟩ draws
        = decide_action ⟨hole, table, stats, r2, ru2⟩ draws := by
  intro hole table stats r1 r2 ru1 ru2 draws
  rfl

/-- Claim C8: whatever string decide_action produces, the I/O adapter
normalizes anything outside the three valid labels to CALL, so the
emitted action is always FOLD, CALL or RAISE. -/
theorem claim_C8_only_valid_labels :
    ∀ (state : RoundState) (draws : List (List String)) (out : String),
      main state draws = some out →
      out = "FOLD" ∨ out = "CALL" ∨ out = "RAISE" := by
  intro state draws out h
  cases hd : decide_action state draws with
  | none => simp [main, hd] at h
  | some a =>
    have h2 : main_safety_check a = out := by
      simpa [main, hd] using h
    by_cases hv : a = "FOLD" ∨ a = "CALL" ∨ a = "RAISE"
    · rw [main_safety_check, if_neg (not_not_intro hv)] at h2
      subst h2; exact hv
    · rw [main_safety_check, if_pos hv] at h2
      subst h2; right; left; rfl

/-- Witness for claim C8 at a concrete full run of the adapter. -/
theorem claim_C8_witness :
    ("RAISE" : String) = "FOLD" ∨ ("RAISE" : String) = "CALL" ∨ ("RAISE" : String) = "RAISE" :=
  claim_C8_only_valid_labels ⟨["QS", "KS"], "AS", some ⟨1, 1, 1⟩, some 1, none⟩ [["2C", "5D"]]
    ("RAISE") (by with_unfolding_all decide)

/-- Claim C10: the band-heuristic policy of player_template.py never folds
a hand of category 1 or higher (the result is CALL or RAISE), and a FOLD
can only come out of a high-card (category 0) hand. -/
theorem claim_C10_template_fold_only_weak :
    (∀ (state : RoundState) (cat : ℕ) (res : String),
        hand_category state.your_hole state.table_card = some cat →
        1 ≤ cat →
        PlayerTemplate.decide_action state = some res →
        res = "CALL" ∨ res = "RAISE") ∧
    (∀ (state : RoundState),
        PlayerTemplate.decide_action state = some ("FOLD") →
        hand_category state.your_hole state.table_card = some 0) := by
  constructor
  · intro state cat res hcat hge h
    rw [PlayerTemplate.decide_action, hcat] at h
    dsimp only at h
    split_ifs at h <;>
      first
        | (left; exact (Option.some.inj h).symm)
        | (right; exact (Option.some.inj h).symm)
        | omega
  · intro state h
    cases hc : hand_category state.your_hole state.table_card with
    | none => rw [PlayerTemplate.decide_action, hc] at h; simp at h
    | some cat =>
      rw [PlayerTemplate.decide_action, hc] at h
      dsimp only at h
      split_ifs at h with h1 h2 h3 h4 h5 h6 <;>
        first
          | (exfalso; exact absurd (Option.some.inj h) (by decide))
          | (simp only [Option.some.injEq]; omega)

/-- Witness for claim C10: a pair of nines with no opponent history is
called, not folded. -/
theorem claim_C10_witness :
    ("CALL" : String) = "CALL" ∨ ("CALL" : String) = "RAISE" :=
  claim_C10_template_fold_only_weak.1 ⟨["9C", "9D"], "2H", none, some 1, none⟩ 1 ("CALL")
    rfl (by decide) (by with_unfolding_all decide)

/-- Helper: the Python `len(set(suits)) == 1` test on three suits holds
exactly when all three suits are equal. -/
theorem flush_char_iff (u1 u2 u3 : Char) :
    ((([u1, u2, u3] : List Char).dedup.length == 1) = true) ↔ (u1 = u2 ∧ u2 = u3) := by
  by_cases h23 : u2 = u3
  · subst h23
    by_cases h12 : u1 = u2
    · subst h12
      simp [List.dedup_cons_of_mem]
    · have d : ([u1, u2, u2] : List Char).dedup = [u1, u2] := by
        rw [List.dedup_cons_of_not_mem (by simp [h12])]
        rw [List.dedup_cons_of_mem (by simp)]
        simp
      simp [d, h12]
  · by_cases h12 : u1 = u2
    · subst h12
      have d : ([u1, u1, u3] : List Char).dedup = [u1, u3] := by
        rw [List.dedup_cons_of_mem (by simp)]
        rw [List.dedup_cons_of_not_mem (by simp [h23])]
        simp
      simp [d, h23]
    · by_cases h13 : u1 = u3
      · subst h13
        have d : ([u1, u2, u1] : List Char).dedup = [u2, u1] := by
          rw [List.dedup_cons_of_mem (by simp)]
          rw [List.dedup_cons_of_not_mem (by simp [h23])]
          simp
        simp [d, h12]
      · have d : ([u1, u2, u3] : List Char).dedup = [u1, u2, u3] := by
          rw [List.dedup_cons_of_not_mem (by simp [h12, h13])]
          rw [List.dedup_cons_of_not_mem (by simp [h23])]
          simp
        simp [d, h12]

/-- Helper: the Python `k in counts.values()` test holds exactly when some
rank of the list occurs k times in it. -/
theorem any_count_iff (l : List ℕ) (k : ℕ) :
    ((l.any fun v => l.count v == k) = true) ↔ (∃ v ∈ l, l.count v = k) := by
  simp [List.any_eq_true]

/-- Claim C3: hand_category follows the fixed precedence straight-and-flush,
three of a rank, straight, flush, pair, high card (first match wins), and
the six concrete example hands classify as the spec states. -/
theorem claim_C3_category_precedence :
    (∀ (s1 s2 s3 : String) (r1 r2 r3 : ℕ) (u1 u2 u3 : Char),
        parse_card s1 = some (r1, u1) → parse_card s2 = some (r2, u2) →
        parse_card s3 = some (r3, u3) →
        hand_category [s1, s2] s3 = some (
          if (is_straight_3 [r1, r2, r3]).1 = true ∧ (u1 = u2 ∧ u2 = u3) then 5
          else if ∃ v ∈ ([r1, r2, r3] : List ℕ), ([r1, r2, r3] : List ℕ).count v = 3 then 4
          else if (is_straight_3 [r1, r2, r3]).1 = true then 3
          else if u1 = u2 ∧ u2 = u3 then 2
          else if ∃ v ∈ ([r1, r2, r3] : List ℕ), ([r1, r2, r3] : List ℕ).count v = 2 then 1
          else 0)) ∧
    hand_category ["2C", "3D"] ("4H") = some 3 ∧
    hand_category ["QS", "KS"] ("AS") = some 5 ∧
    hand_category ["AC", "2D"] ("3H") = some 3 ∧
    hand_category ["7C", "7D"] ("7H") = some 4 ∧
    hand_category ["9C", "9D"] ("2H") = some 1 ∧
    hand_category ["2C", "5D"] ("9H") = some 0 := by
  refine ⟨?_, rfl, rfl, rfl, rfl, rfl, rfl⟩
  intro s1 s2 s3 r1 r2 r3 u1 u2 u3 h1 h2 h3
  have hp : parse_cards [s1, s2, s3] = some [(r1, u1), (r2, u2), (r3, u3)] := by
    rw [parse_cards, h1, parse_cards, h2, parse_cards, h3, parse_cards]
  show (parse_cards ([s1, s2] ++ [s3])).map hand_category_parsed = _
  rw [show ([s1, s2] ++ [s3] : List String) = [s1, s2, s3] from rfl, hp]
  dsimp only [Option.map]
  refine congrArg some ?_
  rw [hand_category_parsed]
  dsimp only [List.map]
  simp only [Bool.and_eq_true, any_count_iff, flush_char_iff]

/-- Witness for claim C3: the general precedence statement applied to the
trips hand 7C 7D 7H. -/
theorem claim_C3_witness : hand_category ["7C", "7D"] ("7H") = some 4 := by
  have h := claim_C3_category_precedence.1 ("7C") ("7D") ("7H") 7 7 7 'C' 'D' 'H' rfl rfl rfl
  rw [h]
  decide

/-- Helper for claim C6: parsing two permuted token lists either fails on
both or yields permuted parsed lists. -/
theorem parse_cards_perm {l1 l2 : List String} (h : l1.Perm l2) :
    OptPerm (parse_cards l1) (parse_cards l2) := by
  induction h with
  | nil => exact Or.inr ⟨[], [], rfl, rfl, List.Perm.nil⟩
  | cons x hx ih =>
    cases hp : parse_card x with
    | none => exact Or.inl ⟨by simp [parse_cards, hp], by simp [parse_cards, hp]⟩
    | some p =>
      rcases ih with ⟨e1, e2⟩ | ⟨m1, m2, e1, e2, hm⟩
      · exact Or.inl ⟨by simp [parse_cards, hp, e1], by simp [parse_cards, hp, e2]⟩
      · exact Or.inr ⟨p :: m1, p :: m2, by simp [parse_cards, hp, e1],
          by simp [parse_cards, hp, e2], hm.cons p⟩
  | swap x y l =>
    cases hx : parse_card x with
    | none => exact Or.inl ⟨by simp [parse_cards, hx], by
        cases hy : parse_card y <;> simp [parse_cards, hx, hy]⟩
    | some px =>
      cases hy : parse_card y with
      | none => exact Or.inl ⟨by simp [parse_cards, hy], by simp [parse_cards, hx, hy]⟩
      | some py =>
        cases hl : parse_cards l with
        | none => exact Or.inl ⟨by simp [parse_cards, hx, hy, hl],
            by simp [parse_cards, hx, hy, hl]⟩
        | some m =>
          exact Or.inr ⟨py :: px :: m, px :: py :: m,
            by simp [parse_cards, hx, hy, hl], by simp [parse_cards, hx, hy, hl],
            List.Perm.swap px py m⟩
  | trans h1 h2 ih1 ih2 =>
    rcases ih1 with ⟨e1, e2⟩ | ⟨m1, m2, e1, e2, hm⟩
    · rcases ih2 with ⟨f1, f2⟩ | ⟨n1, n2, f1, f2, hn⟩
      · exact Or.inl ⟨e1, f2⟩
      · rw [e2] at f1; exact absurd f1 (by simp)
    · rcases ih2 with ⟨f1, f2⟩ | ⟨n1, n2, f1, f2, hn⟩
      · rw [e2] at f1; exact absurd f1 (by simp)
      · rw [e2] at f1
        exact Or.inr ⟨m1, n2, e1, f2, hm.trans (Option.some.inj f1 ▸ hn)⟩

/-- Helper: sorting is invariant under permutation of the input, since
the sorted permutation of a list of naturals is unique. -/
theorem insertionSort_congr {l1 l2 : List ℕ} (h : l1.Perm l2) :
    List.insertionSort (· ≤ ·) l1 = List.insertionSort (· ≤ ·) l2 :=
  List.eq_of_perm_of_sorted
    ((List.perm_insertionSort _ l1).trans (h.trans (List.perm_insertionSort _ l2).symm))
    (List.sorted_insertionSort _ l1) (List.sorted_insertionSort _ l2)

/-- Helper: the straight predicate only looks at the sorted ranks, so it
is permutation-invariant. -/
theorem is_straight_3_congr {l1 l2 : List ℕ} (h : l1.Perm l2) :
    is_straight_3 l1 = is_straight_3 l2 := by
  rw [is_straight_3, is_straight_3, insertionSort_congr h]

/-- Helper: the rank-multiplicity test is permutation-invariant. -/
theorem any_count_congr {l1 l2 : List ℕ} (h : l1.Perm l2) (k : ℕ) :
    (l1.any fun v => l1.count v == k) = (l2.any fun v => l2.count v == k) := by
  rw [Bool.eq_iff_iff, any_count_iff, any_count_iff]
  constructor
  · rintro ⟨v, hv, hc⟩
    exact ⟨v, h.mem_iff.mp hv, by rw [← h.count_eq]; exact hc⟩
  · rintro ⟨v, hv, hc⟩
    exact ⟨v, h.mem_iff.mpr hv, by rw [h.count_eq]; exact hc⟩

/-- Helper: the category of a parsed hand is a function of the multiset of
its cards. -/
theorem hand_category_parsed_perm {m1 m2 : List (ℕ × Char)} (h : m1.Perm m2) :
    hand_category_parsed m1 = hand_category_parsed m2 := by
  have hr : (m1.map Prod.fst).Perm (m2.map Prod.fst) := h.map Prod.fst
  have hs : (m1.map Prod.snd).Perm (m2.map Prod.snd) := h.map Prod.snd
  rw [hand_category_parsed, hand_category_parsed]
  rw [is_straight_3_congr hr, hs.dedup.length_eq, any_count_congr hr 3, any_count_congr hr 2]

/-- Helper: hand_category, as a function of the token list, is
permutation-invariant (even when some token fails to parse). -/
theorem hand_category_strings_perm {l1 l2 : List String} (h : l1.Perm l2) :
    (parse_cards l1).map hand_category_parsed = (parse_cards l2).map hand_category_parsed := by
  rcases parse_cards_perm h with ⟨e1, e2⟩ | ⟨m1, m2, e1, e2, hm⟩
  · rw [e1, e2]
  · rw [e1, e2]
    exact congrArg some (hand_category_parsed_perm hm)

/-- Claim C6: the hand category does not depend on the order of the three
cards: swapping the two hole cards, or exchanging a hole card with the
shared card, yields the same category (all six arrangements agree). -/
theorem claim_C6_category_symmetric :
    ∀ (a b c : String),
      hand_category [a, b] c = hand_category [b, a] c ∧
      hand_category [a, b] c = hand_category [a, c] b ∧
      hand_category [a, b] c = hand_category [c, b] a ∧
      hand_category [a, b] c = hand_category [b, c] a ∧
      hand_category [a, b] c = hand_category [c, a] b := by
  intro a b c
  have p1 : ([a, b, c] : List String).Perm [b, a, c] := List.Perm.swap b a [c]
  have p2 : ([a, b, c] : List String).Perm [a, c, b] := (List.Perm.swap c b []).cons a
  have p4 : ([a, b, c] : List String).Perm [b, c, a] :=
    p1.trans ((List.Perm.swap c a []).cons b)
  have p3 : ([a, b, c] : List String).Perm [c, b, a] :=
    p4.trans (List.Perm.swap c b [a])
  have p5 : ([a, b, c] : List String).Perm [c, a, b] :=
    p2.trans (List.Perm.swap c a [b])
  exact ⟨hand_category_strings_perm p1, hand_category_strings_perm p2,
    hand_category_strings_perm p3, hand_category_strings_perm p4,
    hand_category_strings_perm p5⟩

/-- Claim C7: on rank values (2..14), is_straight_3 returns (true, highest)
when the three ranks are consecutive, returns (true, 3) exactly on the
multiset A-2-3 (the wheel, with high value 3, not 14), and (false, 0) in
every other case. -/
theorem claim_C7_straight_check :
    ∀ (a b c : ℕ),
      2 ≤ a ∧ a ≤ 14 → 2 ≤ b ∧ b ≤ 14 → 2 ≤ c ∧ c ≤ 14 →
      ((({a, b, c} : Multiset ℕ)
          = {min a (min b c), min a (min b c) + 1, min a (min b c) + 2} →
        is_straight_3 [a, b, c] = (true, max a (max b c))) ∧
      (is_straight_3 [a, b, c] = (true, 3) ↔ ({a, b, c} : Multiset ℕ) = {14, 2, 3}) ∧
      ((({a, b, c} : Multiset ℕ)
          ≠ {min a (min b c), min a (min b c) + 1, min a (min b c) + 2} ∧
        ({a, b, c} : Multiset ℕ) ≠ {14, 2, 3}) →
        is_straight_3 [a, b, c] = (false, 0))) := by
  have key : ∀ a ∈ Finset.Icc 2 14, ∀ b ∈ Finset.Icc 2 14, ∀ c ∈ Finset.Icc (2 : ℕ) 14,
      ((({a, b, c} : Multiset ℕ)
          = {min a (min b c), min a (min b c) + 1, min a (min b c) + 2} →
        is_straight_3 [a, b, c] = (true, max a (max b c))) ∧
      (is_straight_3 [a, b, c] = (true, 3) ↔ ({a, b, c} : Multiset ℕ) = {14, 2, 3}) ∧
      ((({a, b, c} : Multiset ℕ)
          ≠ {min a (min b c), min a (min b c) + 1, min a (min b c) + 2} ∧
        ({a, b, c} : Multiset ℕ) ≠ {14, 2, 3}) →
        is_straight_3 [a, b, c] = (false, 0))) := by decide
  intro a b c ha hb hc
  exact key a (Finset.mem_Icc.mpr ha) b (Finset.mem_Icc.mpr hb) c (Finset.mem_Icc.mpr hc)

/-- Witness for claim C7: the wheel A-2-3 is a straight with reported high
value 3. -/
theorem claim_C7_witness : is_straight_3 [14, 2, 3] = (true, 3) :=
  (claim_C7_straight_check 14 2 3 (by decide) (by decide) (by decide)).2.1.mpr (by decide)

end FinopolyPoker
